import Mathlib

/-!
# gobot `api` package: a shallow embedding of `api/api.go` and its contracts

The development follows the file top to bottom.

* Go strings and byte slices are lists of bytes (`GoString`).
* A request handler `func(http.ResponseWriter, *http.Request)` is a function from
  the request to the ordered list of observable actions it performs
  (`Event`): calls on the response writer, calls of collaborator commands and
  log lines.  `none` stands for a run-time panic.
* The packages the file imports (`crypto/subtle`, `encoding/base64`,
  `encoding/json`, `net/http`, `pat`, `gobot`, `robeaux`) are modelled at their
  documented interface; each such definition says so.
-/

namespace Gobot.Api

/-! ## Bytes and strings -/

/-- A Go `byte`. -/
abbrev Byte := Fin 256

/-- A Go `string` or `[]byte`: a finite sequence of bytes. -/
abbrev GoString := List Byte

/-- The bytes of an ASCII string literal of the source. -/
def ascii (s : String) : GoString := s.toList.map (fun c => Fin.ofNat c.toNat)

/-! ## crypto/subtle -/

/-- The conversion `int32(n)` of a Go `int`: the low 32 bits, read in two's complement. -/
def int32 (n : Int) : Int := (n + 2 ^ 31) % 2 ^ 32 - 2 ^ 31

/-- The conversion `uint32(x)` of an `int32`: its bit pattern. -/
def uint32 (x : Int) : Nat := (x % 2 ^ 32).toNat

/-- Go `subtle.ConstantTimeEq(x, y int32) int`:
`int((uint64(uint32(x^y)) - 1) >> 63)`, with the subtraction wrapping at 64 bits. -/
def ConstantTimeEq (x y : Int) : Nat :=
  (((uint32 x ^^^ uint32 y) + 2 ^ 64 - 1) % 2 ^ 64) >>> 63

/-- Go `subtle.ConstantTimeByteEq(x, y uint8) int`:
`int((uint32(x^y) - 1) >> 31)`, with the subtraction wrapping at 32 bits. -/
def ConstantTimeByteEq (x y : Nat) : Nat :=
  (((x ^^^ y) + 2 ^ 32 - 1) % 2 ^ 32) >>> 31

/-- The loop of `subtle.ConstantTimeCompare`: `v |= x[i] ^ y[i]` on a `byte` accumulator. -/
def xorAccumulate : GoString → GoString → Nat → Nat
  | x :: xs, y :: ys, v => xorAccumulate xs ys ((v ||| (x.val ^^^ y.val)) % 256)
  | _, _, v => v

/-- Go `subtle.ConstantTimeCompare(x, y []byte) int`: 0 at once when the lengths differ,
otherwise the accumulated xor of all byte pairs compared with 0. -/
def ConstantTimeCompare (x y : GoString) : Nat :=
  if x.length ≠ y.length then 0
  else ConstantTimeByteEq (xorAccumulate x y 0) 0

/-! ## secureCompare (api.go, lines 297-304) -/

/-- Go `func (a *api) secureCompare(given string, actual string) bool`. -/
def secureCompare (given actual : GoString) : Bool :=
  if ConstantTimeEq (int32 given.length) (int32 actual.length) = 1 then
    decide (ConstantTimeCompare given actual = 1)
  else
    -- Securely compare actual to itself to keep constant time, but always return false
    decide (ConstantTimeCompare actual actual = 1) && false

/-! ## encoding/base64 -/

/-- The alphabet of `base64.StdEncoding`. -/
def encodeStd : GoString :=
  ascii "ABCDEFGHIJKLMNOPQRSTUVWXYZabcdefghijklmnopqrstuvwxyz0123456789+/"

/-- The character of the standard alphabet for a 6-bit group. -/
def base64Char (n : Nat) : Byte := encodeStd.getD n 0

/-- Go `base64.StdEncoding.EncodeToString`: three bytes give four characters, the last
group is padded with `=`. -/
def EncodeToString : GoString → GoString
  | [] => []
  | [a] => [base64Char (a.val / 4), base64Char (a.val % 4 * 16), 61, 61]
  | [a, b] =>
    [base64Char (a.val / 4), base64Char (a.val % 4 * 16 + b.val / 16),
      base64Char (b.val % 16 * 4), 61]
  | a :: b :: c :: rest =>
    base64Char (a.val / 4) :: base64Char (a.val % 4 * 16 + b.val / 16) ::
      base64Char (b.val % 16 * 4 + c.val / 64) :: base64Char (c.val % 64) ::
      EncodeToString rest

/-! ## Dynamic values, maps and encoding/json -/

/-- A Go `interface{}` value as far as this file looks into it: a Go string, or any
other dynamic value, kept in a type `α` of its own. -/
inductive Value (α : Type) where
  | str (s : GoString)
  | other (a : α)

/-- A Go `map[string]interface{}`: `none` is the nil map, `some es` an allocated map
with the entries `es`. -/
abbrev GoMap (α : Type) := Option (List (GoString × Value α))

/-- Go `make(map[string]interface{})`. -/
def makeMap {α : Type} : GoMap α := some []

/-- Replace the value stored under `k`, or add the entry. -/
def setEntry {α : Type} (k : GoString) (v : Value α) :
    List (GoString × Value α) → List (GoString × Value α)
  | [] => [(k, v)]
  | (k', v') :: es => if k' = k then (k, v) :: es else (k', v') :: setEntry k v es

/-- The statement `m[k] = v`; `none` is the run-time panic
"assignment to entry in nil map". -/
def mapAssign {α : Type} (m : GoMap α) (k : GoString) (v : Value α) : Option (GoMap α) :=
  match m with
  | none => none
  | some es => some (some (setEntry k v es))

/-- The expression `m[k]`, with `none` when the key is not present (also on a nil map). -/
def mapIndex {α : Type} (m : GoMap α) (k : GoString) : Option (Value α) :=
  match m with
  | none => none
  | some es => (es.find? (fun e => e.1 = k)).map (fun e => e.2)

/-- What `json.NewDecoder(r).Decode(&body)` does to a `map[string]interface{}`
(package encoding/json):
* `failure`: Decode returns an error and leaves the map as it was (no input, malformed
  JSON, or a JSON array, string, number or boolean, which cannot be stored in a map);
* `null`: the input is the JSON literal `null`; Decode returns no error and sets the
  map to nil ("The JSON null value unmarshals into an interface, map, pointer, or slice
  by setting that Go value to nil");
* `object es`: the input is a JSON object and `es` are the members stored in the map.
  Decode may still return an error after storing them (a member whose number is out of
  range is skipped and reported); the handlers drop that error. -/
inductive Decoded (α : Type) where
  | failure
  | null
  | object (es : List (GoString × Value α))

/-- The map `body` after `Decode(&body)`, for `body` freshly made. -/
def decodeInto {α : Type} : Decoded α → GoMap α
  | .failure => makeMap
  | .null => none
  | .object es => some es

/-- The sixteen hexadecimal digits used by the JSON string encoder. -/
def hexDigit (n : Nat) : Byte := (ascii "0123456789abcdef").getD n 0

/-- One ASCII byte of a Go string inside a JSON string, as `json.Marshal` writes it
(HTML escaping on): quote and backslash get a backslash, the usual control characters
their short form, the other control characters and `<`, `>`, `&` the form `\u00XX`;
every other ASCII byte is copied. -/
def escapeByte (b : Byte) : GoString :=
  if b = 34 ∨ b = 92 then [92, b]
  else if b = 8 then [92, 98]
  else if b = 12 then [92, 102]
  else if b = 10 then [92, 110]
  else if b = 13 then [92, 114]
  else if b = 9 then [92, 116]
  else if b.val < 32 ∨ b = 60 ∨ b = 62 ∨ b = 38 then
    [92, 117, 48, 48, hexDigit (b.val / 16), hexDigit (b.val % 16)]
  else [b]

/-- Go `json.Marshal` on a Go string. An ASCII string is written between quotes with
its bytes escaped. On a string with a byte from 0x80 on the encoder decodes UTF-8
(it writes U+2028 and U+2029 as escapes and U+FFFD for bytes that are not valid UTF-8);
that part of the encoder is the parameter `text`. -/
def marshalString (text : GoString → GoString) (s : GoString) : GoString :=
  if s.all (fun b => decide (b.val < 128)) then 34 :: (s.flatMap escapeByte ++ [34])
  else text s

/-- A command of the collaborator graph:
`func(map[string]interface{}) interface{}`. -/
abbrev Command (α : Type) := GoMap α → Value α

/-! ## net/http -/

/-- The fields of `*http.Request` that the handlers read. `Query` is
`req.URL.Query()`, which holds the path parameters bound by the router; `Header` maps a
canonical header name to its first value. -/
structure Request where
  Method : GoString
  Path : GoString
  Query : List (GoString × GoString)
  Header : List (GoString × GoString)
  Body : GoString

/-- Go `Get` of `http.Header` and of `url.Values`: the first value stored under the key,
the empty string when there is none. -/
def Get (vs : List (GoString × GoString)) (key : GoString) : GoString :=
  match vs.find? (fun e => e.1 = key) with
  | some e => e.2
  | none => []

/-- The observable actions of a handler, in the order it performs them. -/
inductive Event (α : Type) where
  /-- The call `res.Header().Set(key, value)`. -/
  | headerSet (key value : GoString)
  /-- The call `res.WriteHeader(code)`. -/
  | writeHeader (code : Nat)
  /-- The call `res.Write(data)`. -/
  | write (data : GoString)
  /-- The call `log.Println(req)`. -/
  | logPrintln (req : Request)
  /-- The call `f(body)` of a command of the collaborator graph. -/
  | invoke (f : Command α) (bag : GoMap α)

/-- A `func(http.ResponseWriter, *http.Request)`: the actions it performs on a request,
or `none` when it panics. -/
abbrev HandlerFunc (α : Type) := Request → Option (List (Event α))

/-- Go `http.Error(w, error, code)`: sets the plain-text content type and the `nosniff`
option, writes the status line and then the message followed by a newline. (Recent
releases first delete headers such as `Content-Length`; no handler of this file sets
one of them.) -/
def httpError {α : Type} (error : GoString) (code : Nat) : List (Event α) :=
  [.headerSet (ascii "Content-Type") (ascii "text/plain; charset=utf-8"),
   .headerSet (ascii "X-Content-Type-Options") (ascii "nosniff"),
   .writeHeader code,
   .write (error ++ [10])]

/-- The status of the response a list of actions produces: the code of the first
`WriteHeader`, or 200 when a `Write` comes first; `none` when nothing is sent. -/
def statusCode {α : Type} : List (Event α) → Option Nat
  | [] => none
  | .writeHeader code :: _ => some code
  | .write _ :: _ => some 200
  | _ :: es => statusCode es

/-- The response body: all written data in order. -/
def responseBody {α : Type} : List (Event α) → GoString
  | [] => []
  | .write data :: es => data ++ responseBody es
  | _ :: es => responseBody es

/-- The header assignments made, in order. -/
def headersSet {α : Type} : List (Event α) → List (GoString × GoString)
  | [] => []
  | .headerSet k v :: es => (k, v) :: headersSet es
  | _ :: es => headersSet es

/-- The argument bags of the command calls made, in order. -/
def invocations {α : Type} : List (Event α) → List (GoMap α)
  | [] => []
  | .invoke _ bag :: es => bag :: invocations es
  | _ :: es => invocations es

/-! ## The collaborators -/

/-- Modelled from the spec: a device of the collaborator graph (package gobot, not
under src/), "lookup of its own commands by name"; `none` is the nil function. -/
structure Device (α : Type) where
  Command : GoString → Option (Command α)

/-- Modelled from the spec: a robot of the collaborator graph (package gobot, not under
src/), "lookup of its own commands, devices, and connections by name". -/
structure Robot (α : Type) where
  Command : GoString → Option (Command α)
  Device : GoString → Device α

/-- Modelled from the spec: the root of the collaborator graph (package gobot, not
under src/), "lookup of a top-level command by name; lookup of a robot by name". -/
structure Gobot (α : Type) where
  Command : GoString → Option (Command α)
  Robot : GoString → Robot α

/-- What the handlers are linked against: the collaborator graph, the bundled assets
(`robeaux.Asset`, which fails with an error text), the JSON decoder on request bodies,
`json.Marshal` on the values that are not Go strings and on the Go strings that are not
ASCII. -/
structure Env (α : Type) where
  gobot : Gobot α
  Asset : GoString → Except GoString GoString
  Decode : GoString → Decoded α
  Marshal : α → GoString
  MarshalText : GoString → GoString

/-- Go `json.Marshal(v)` with the error dropped, as in `data, _ = json.Marshal(v)`. -/
def jsonMarshal {α : Type} (env : Env α) : Value α → GoString
  | .str s => marshalString env.MarshalText s
  | .other a => env.Marshal a

/-! ## The server (api.go, lines 18-54 and 271-281) -/

/-- An entry of `api.handlers`. The slice holds function values; `a.basicAuth` is a
method value bound to the pointer `a`, so it reads the credentials that `a` holds when
the request is served. -/
inductive Middleware (α : Type) where
  | basicAuth
  | func (f : HandlerFunc α)

/-- The type `api`: the configuration fields and the middleware list. -/
structure api (α : Type) where
  Host : GoString
  Port : GoString
  Username : GoString
  Password : GoString
  Cert : GoString
  Key : GoString
  handlers : List (Middleware α)

/-- The constructor `NewAPI`: port "3000", every other field at its zero value. -/
def NewAPI (α : Type) : api α :=
  { Host := [], Port := ascii "3000", Username := [], Password := [], Cert := [],
    Key := [], handlers := [] }

/-- Go `func (a *api) AddHandler(f)`: `a.handlers = append(a.handlers, f)`. -/
def AddHandler {α : Type} (a : api α) (f : Middleware α) : api α :=
  { a with handlers := a.handlers ++ [f] }

/-- Go `func (a *api) SetBasicAuth(user, password string)`. -/
def SetBasicAuth {α : Type} (a : api α) (user password : GoString) : api α :=
  AddHandler { a with Username := user, Password := password } .basicAuth

/-- Go `func (a *api) SetDebug()`: registers a function that logs the request. -/
def SetDebug {α : Type} (a : api α) : api α :=
  AddHandler a (.func (fun req => some [.logPrintln req]))

/-! ## basicAuth (api.go, lines 285-295) -/

/-- The value the `Authorization` header is compared with. -/
def expectedAuthorization (user password : GoString) : GoString :=
  ascii "Basic " ++ EncodeToString (user ++ ascii ":" ++ password)

/-- Go `func (a *api) basicAuth(res, req)`. -/
def basicAuth {α : Type} (a : api α) : HandlerFunc α := fun req =>
  let auth := Get req.Header (ascii "Authorization")
  if !secureCompare auth (expectedAuthorization a.Username a.Password) then
    some (.headerSet (ascii "WWW-Authenticate") (ascii "Basic realm=\"Authorization Required\"")
      :: httpError (ascii "Not Authorized") 401)
  else
    some []

/-! ## run (api.go, lines 95-102) -/

/-- The function value a middleware entry stands for on the server `a`. -/
def callMiddleware {α : Type} (a : api α) : Middleware α → HandlerFunc α
  | .basicAuth => basicAuth a
  | .func f => f

/-- The loop `for _, handler := range a.handlers { handler(res, req) }`. -/
def runHandlers {α : Type} (a : api α) : List (Middleware α) → HandlerFunc α
  | [], _ => some []
  | h :: hs, req =>
    match callMiddleware a h req with
    | none => none
    | some evs =>
      match runHandlers a hs req with
      | none => none
      | some rest => some (evs ++ rest)

/-- Go `func (a *api) run(f) http.HandlerFunc`: every middleware, then `f`. -/
def run {α : Type} (a : api α) (f : HandlerFunc α) : HandlerFunc α := fun req =>
  match runHandlers a a.handlers req with
  | none => none
  | some evs =>
    match f req with
    | none => none
    | some out => some (evs ++ out)

/-! ## robeaux (api.go, lines 104-118) -/

/-- Go `strings.Split(s, sep)` for a separator of one byte: the pieces between the
separators, at least one piece. -/
def splitOn (sep : Byte) : GoString → List GoString
  | [] => [[]]
  | c :: cs =>
    if c = sep then [] :: splitOn sep cs
    else
      match splitOn sep cs with
      | [] => [[c]]
      | piece :: pieces => (c :: piece) :: pieces

/-- Go `func (a *api) robeaux(res, req)`. The slice `path[1:]` panics on the empty path. -/
def robeaux {α : Type} (env : Env α) : HandlerFunc α := fun req =>
  let path := req.Path
  match path with
  | [] => none
  | _ :: rest =>
    match env.Asset rest with
    | .error err => some (httpError err 404)
    | .ok buf =>
      let t := splitOn 46 path
      let last := t.getLastD []
      if last = ascii "js" then
        some [.headerSet (ascii "Content-Type") (ascii "text/javascript; charset=utf-8"),
          .write buf]
      else if last = ascii "css" then
        some [.headerSet (ascii "Content-Type") (ascii "text/css; charset=utf-8"),
          .write buf]
      else
        some [.write buf]

/-! ## The invocation handlers (api.go, lines 209-269) -/

/-- The common tail of the three handlers: call the command when the lookup found
one, marshal the result or the string "Unknown Command", set the content type and write
the data. -/
def respond {α : Type} (env : Env α) (f : Option (Command α)) (body : GoMap α) :
    List (Event α) :=
  match f with
  | some f =>
    [.invoke f body,
     .headerSet (ascii "Content-Type") (ascii "application/json; charset=utf-8"),
     .write (jsonMarshal env (f body))]
  | none =>
    [.headerSet (ascii "Content-Type") (ascii "application/json; charset=utf-8"),
     .write (jsonMarshal env (.str (ascii "Unknown Command")))]

/-- Go `func (a *api) executeMcpCommand(res, req)`. -/
def executeMcpCommand {α : Type} (env : Env α) : HandlerFunc α := fun req =>
  let command := Get req.Query (ascii ":command")
  let body := decodeInto (env.Decode req.Body)
  let f := env.gobot.Command command
  some (respond env f body)

/-- Go `func (a *api) executeDeviceCommand(res, req)`. -/
def executeDeviceCommand {α : Type} (env : Env α) : HandlerFunc α := fun req =>
  let robot := Get req.Query (ascii ":robot")
  let device := Get req.Query (ascii ":device")
  let command := Get req.Query (ascii ":command")
  let body := decodeInto (env.Decode req.Body)
  let d := (env.gobot.Robot robot).Device device
  match mapAssign body (ascii "robot") (.str robot) with
  | none => none
  | some body =>
    let f := d.Command command
    some (respond env f body)

/-- Go `func (a *api) executeRobotCommand(res, req)`. -/
def executeRobotCommand {α : Type} (env : Env α) : HandlerFunc α := fun req =>
  let robot := Get req.Query (ascii ":robot")
  let command := Get req.Query (ascii ":command")
  let body := decodeInto (env.Decode req.Body)
  let r := env.gobot.Robot robot
  match mapAssign body (ascii "robot") (.str robot) with
  | none => none
  | some body =>
    let f := r.Command command
    some (respond env f body)

/-! ## The route table (api.go, lines 58-93) -/

/-- The handlers that `Start` registers. -/
inductive Operation where
  | mcp | mcpCommands | executeMcpCommand | robots | robot | robotCommands
  | executeRobotCommand | robotDevices | robotDevice | robotDeviceCommands
  | executeDeviceCommand | robotConnections | robotConnection | robeaux
  deriving DecidableEq, Repr

/-- A registration `a.server.Get(pattern, a.run(h))` or `a.server.Post(...)`. -/
structure Route where
  method : GoString
  pattern : GoString
  operation : Operation

/-- Go `a.server.Get(pattern, a.run(h))`. -/
def Route.get (pattern : String) (h : Operation) : Route :=
  { method := ascii "GET", pattern := ascii pattern, operation := h }

/-- Go `a.server.Post(pattern, a.run(h))`. -/
def Route.post (pattern : String) (h : Operation) : Route :=
  { method := ascii "POST", pattern := ascii pattern, operation := h }

def mcpCommandRoute : String := "/commands/:command"

def deviceCommandRoute : String := "/robots/:robot/devices/:device/commands/:command"

def robotCommandRoute : String := "/robots/:robot/commands/:command"

/-- Go `func (a *api) Start()`: the registrations, in the order of the source. -/
def Start : List Route :=
  [ .get "/" .mcp,
    .get "/commands" .mcpCommands,
    .get mcpCommandRoute .executeMcpCommand,
    .post mcpCommandRoute .executeMcpCommand,
    .get "/robots" .robots,
    .get "/robots/:robot" .robot,
    .get "/robots/:robot/commands" .robotCommands,
    .get robotCommandRoute .executeRobotCommand,
    .post robotCommandRoute .executeRobotCommand,
    .get "/robots/:robot/devices" .robotDevices,
    .get "/robots/:robot/devices/:device" .robotDevice,
    .get "/robots/:robot/devices/:device/commands" .robotDeviceCommands,
    .get deviceCommandRoute .executeDeviceCommand,
    .post deviceCommandRoute .executeDeviceCommand,
    .get "/robots/:robot/connections" .robotConnections,
    .get "/robots/:robot/connections/:connection" .robotConnection,
    .get "/:a" .robeaux,
    .get "/:a/" .robeaux,
    .get "/:a/:b" .robeaux,
    .get "/:a/:b/" .robeaux,
    .get "/:a/:b/:c" .robeaux,
    .get "/:a/:b/:c/" .robeaux ]

/-- The string written for each of the four placeholders of the route table. -/
def placeholderValue (robot device command connection : GoString) (p : GoString) :
    GoString :=
  if p = ascii ":robot" then robot
  else if p = ascii ":device" then device
  else if p = ascii ":command" then command
  else connection

/-- A pattern segment that is a named placeholder (`:name`). -/
def isPlaceholder (segment : GoString) : Bool := segment.head? = some 58

/-- Modelled from the spec: the pattern matcher of the router (package pat, not under
src/), "patterns are matched path-segment-by-path-segment, literal segments must match
exactly, placeholder segments match any non-empty segment and bind it by name". -/
def matchSegments : List GoString → List GoString → Option (List (GoString × GoString))
  | [], [] => some []
  | p :: ps, s :: ss =>
    if isPlaceholder p then
      if s = [] then none
      else
        match matchSegments ps ss with
        | none => none
        | some bound => some ((p, s) :: bound)
    else if p = s then matchSegments ps ss
    else none
  | _, _ => none

/-- Modelled from the spec: a pattern against a path, both cut at the separator `/`. -/
def matchPattern (pattern path : GoString) : Option (List (GoString × GoString)) :=
  matchSegments (splitOn 47 pattern) (splitOn 47 path)

/-- Modelled from the spec: "the resolver scans registered entries in registration
order and dispatches to the first entry whose method and pattern both match". The
result is the entry and the path parameters, keyed by placeholder (`:name`). -/
def dispatch : List Route → GoString → GoString →
    Option (Route × List (GoString × GoString))
  | [], _, _ => none
  | r :: rs, method, path =>
    if r.method = method then
      match matchPattern r.pattern path with
      | some bound => some (r, bound)
      | none => dispatch rs method path
    else dispatch rs method path

/-- Go `strings.Join(segments, "/")`. -/
def joinSegments : List GoString → GoString
  | [] => []
  | [s] => s
  | s :: t :: ts => s ++ 47 :: joinSegments (t :: ts)

/-- A pattern segment with `value p` written for a placeholder `p`. -/
def fillSegment (value : GoString → GoString) (p : GoString) : GoString :=
  if isPlaceholder p then value p else p

/-- The path obtained from a pattern by writing `value p` for each placeholder `p`. -/
def fill (value : GoString → GoString) (pattern : GoString) : GoString :=
  joinSegments ((splitOn 47 pattern).map (fillSegment value))

/-- A check on two patterns, used in the proofs: `clash ps qs` holds when the segment
lists differ in length or carry different literals at some position, so that `ps`
matches no path obtained by filling `qs`. -/
def clash : List GoString → List GoString → Bool
  | [], [] => false
  | p :: ps, q :: qs =>
    if isPlaceholder p then clash ps qs
    else if isPlaceholder q then clash ps qs
    else decide (p ≠ q) || clash ps qs
  | _, _ => true

/-- The parameters a pattern binds when filled with `value`, in the order of the
pattern. -/
def bindings (value : GoString → GoString) (pattern : GoString) :
    List (GoString × GoString) :=
  ((splitOn 47 pattern).filter isPlaceholder).map (fun p => (p, value p))

/-! ## Example instances, used to evaluate the definitions on concrete requests -/

/-- A command that ignores its arguments and returns the string "done". -/
def exampleCommand : Command Nat := fun _ => .str (ascii "done")

/-- A graph with the top-level command "go"; every robot has the command "go" and
every device the command "start". -/
def exampleGobot : Gobot Nat :=
  { Command := fun name => if name = ascii "go" then some exampleCommand else none
    Robot := fun _ =>
      { Command := fun name => if name = ascii "go" then some exampleCommand else none
        Device := fun _ =>
          { Command := fun name =>
              if name = ascii "start" then some exampleCommand else none } } }

/-- A decoder instance on four inputs: the literal `null`, the empty object, one object
with the members "robot" and "speed", and everything else failing. -/
def exampleDecode (body : GoString) : Decoded Nat :=
  if body = ascii "null" then .null
  else if body = ascii "\x7b\x7d" then .object []
  else if body = ascii "\x7b\"robot\":\"B\",\"speed\":5\x7d" then
    .object [(ascii "robot", .str (ascii "B")), (ascii "speed", .other 5)]
  else .failure

/-- An environment with one asset, "app.js". -/
def exampleEnv : Env Nat :=
  { gobot := exampleGobot
    Asset := fun name =>
      if name = ascii "app.js" then .ok (ascii "run()")
      else .error (ascii "Asset " ++ name ++ ascii " not found")
    Decode := exampleDecode
    Marshal := fun _ => ascii "0"
    MarshalText := fun s => 34 :: (s ++ [34]) }

/-- A server with Basic-Auth configured. -/
def guardedApi : api Nat := SetBasicAuth (NewAPI Nat) (ascii "admin") (ascii "secret")

/-- The request `GET /commands/go` without an `Authorization` header and without a body. -/
def anonymousGo : Request :=
  { Method := ascii "GET", Path := ascii "/commands/go",
    Query := [(ascii ":command", ascii "go")], Header := [], Body := [] }

/-- The request `POST /robots/A/commands/go` with the body `null`. -/
def robotGoNull : Request :=
  { Method := ascii "POST", Path := ascii "/robots/A/commands/go",
    Query := [(ascii ":robot", ascii "A"), (ascii ":command", ascii "go")],
    Header := [], Body := ascii "null" }

/-- The request `POST /robots/A/commands/go` with the body `{}`. -/
def robotGoEmptyObject : Request :=
  { robotGoNull with Body := ascii "\x7b\x7d" }

/-- The request `POST /commands/go` with the body `null`. -/
def mcpGoNull : Request :=
  { anonymousGo with Method := ascii "POST", Body := ascii "null" }

/-- The request `POST /robots/A/devices/motor/commands/start` with the body `null`. -/
def motorStartNull : Request :=
  { Method := ascii "POST", Path := ascii "/robots/A/devices/motor/commands/start",
    Query := [(ascii ":robot", ascii "A"), (ascii ":device", ascii "motor"),
      (ascii ":command", ascii "start")],
    Header := [], Body := ascii "null" }

/-- The request `POST /robots/A/devices/motor/commands/start` without a body. -/
def motorStart : Request :=
  { motorStartNull with Body := [] }

/-- The request `POST /robots/A/devices/motor/commands/start` with a body that names another
robot. -/
def motorStartSpeed : Request :=
  { motorStartNull with Body := ascii "\x7b\"robot\":\"B\",\"speed\":5\x7d" }

/-- The request `POST /robots/A/devices/motor/commands/start` with the body `{}`. -/
def motorStartEmptyObject : Request :=
  { motorStartNull with Body := ascii "\x7b\x7d" }

/-- A server with Basic-Auth, the debug logger and one more middleware, registered in
this order. -/
def threeMiddleware : api Nat :=
  AddHandler (SetDebug guardedApi)
    (.func (fun _ => some [.headerSet (ascii "X-Seen") (ascii "1")]))

/-- What the three middleware of `threeMiddleware` do on `anonymousGo`, one list each. -/
def threeMiddlewareActions : List (List (Event Nat)) :=
  [ .headerSet (ascii "WWW-Authenticate") (ascii "Basic realm=\"Authorization Required\"")
      :: httpError (ascii "Not Authorized") 401,
    [.logPrintln anonymousGo],
    [.headerSet (ascii "X-Seen") (ascii "1")] ]

/-- The request `GET /app.js`. -/
def appJs : Request :=
  { Method := ascii "GET", Path := ascii "/app.js", Query := [(ascii ":a", ascii "app.js")],
    Header := [], Body := [] }

/-! # Theorems -/

/-! ### Lemmas on the constant-time primitives -/

theorem or_eq_zero_left {a b : Nat} (h : a ||| b = 0) : a = 0 := by
  apply Nat.eq_of_testBit_eq
  intro i
  have := congrArg (fun n => n.testBit i) h
  simp only [Nat.testBit_or, Nat.zero_testBit, Bool.or_eq_false_iff] at this
  simp [this.1]

theorem or_eq_zero_right {a b : Nat} (h : a ||| b = 0) : b = 0 := by
  apply Nat.eq_of_testBit_eq
  intro i
  have := congrArg (fun n => n.testBit i) h
  simp only [Nat.testBit_or, Nat.zero_testBit, Bool.or_eq_false_iff] at this
  simp [this.2]

theorem byte_step_lt (v : Nat) (x y : Byte) : (v ||| (x.val ^^^ y.val)) % 256 < 256 :=
  Nat.mod_lt _ (by decide)

theorem byte_step_eq_zero {v : Nat} (hv : v < 256) (x y : Byte) :
    (v ||| (x.val ^^^ y.val)) % 256 = 0 ↔ v = 0 ∧ x = y := by
  have hx : x.val ^^^ y.val < 256 := @Nat.xor_lt_two_pow _ _ 8 x.isLt y.isLt
  have hor : v ||| (x.val ^^^ y.val) < 256 := @Nat.or_lt_two_pow _ _ 8 hv hx
  rw [Nat.mod_eq_of_lt hor]
  constructor
  · intro h
    refine ⟨or_eq_zero_left h, ?_⟩
    exact Fin.ext (Nat.xor_eq_zero.mp (or_eq_zero_right h))
  · rintro ⟨rfl, rfl⟩
    simp

theorem xorAccumulate_eq_zero :
    ∀ (xs ys : GoString) (v : Nat), v < 256 → xs.length = ys.length →
      (xorAccumulate xs ys v = 0 ↔ v = 0 ∧ xs = ys)
  | [], [], v, _, _ => by simp [xorAccumulate]
  | [], _ :: _, _, _, h => by simp at h
  | _ :: _, [], _, _, h => by simp at h
  | x :: xs, y :: ys, v, hv, h => by
    have hlen : xs.length = ys.length := by simpa using h
    rw [xorAccumulate, xorAccumulate_eq_zero xs ys _ (byte_step_lt v x y) hlen,
      byte_step_eq_zero hv]
    constructor
    · rintro ⟨⟨hv0, hxy⟩, hrest⟩
      exact ⟨hv0, by rw [hxy, hrest]⟩
    · rintro ⟨hv0, hcons⟩
      injection hcons with h1 h2
      exact ⟨⟨hv0, h1⟩, h2⟩

theorem xorAccumulate_lt :
    ∀ (xs ys : GoString) (v : Nat), v < 256 → xorAccumulate xs ys v < 256
  | [], _, v, hv => by simpa [xorAccumulate] using hv
  | _ :: _, [], v, hv => by simpa [xorAccumulate] using hv
  | x :: xs, y :: ys, v, _ => by
    rw [xorAccumulate]
    exact xorAccumulate_lt xs ys _ (byte_step_lt v x y)

theorem ConstantTimeByteEq_zero_iff {v : Nat} (hv : v < 256) :
    ConstantTimeByteEq v 0 = 1 ↔ v = 0 := by
  constructor
  · intro h
    by_contra hne
    have hpos : 0 < v := Nat.pos_of_ne_zero hne
    unfold ConstantTimeByteEq at h
    rw [Nat.xor_zero] at h
    have h1 : v + 2 ^ 32 - 1 = (v - 1) + 2 ^ 32 := by omega
    rw [h1, Nat.add_mod_right, Nat.mod_eq_of_lt (by omega), Nat.shiftRight_eq_div_pow,
      Nat.div_eq_of_lt (by omega)] at h
    exact absurd h (by decide)
  · rintro rfl
    decide

/-- The function `ConstantTimeCompare` returns 1 exactly on equal byte slices. -/
theorem ConstantTimeCompare_eq_one_iff (x y : GoString) :
    ConstantTimeCompare x y = 1 ↔ x = y := by
  unfold ConstantTimeCompare
  by_cases hlen : x.length = y.length
  · rw [if_neg (by simpa using hlen),
      ConstantTimeByteEq_zero_iff (xorAccumulate_lt x y 0 (by decide)),
      xorAccumulate_eq_zero x y 0 (by decide) hlen]
    simp
  · rw [if_pos hlen]
    constructor
    · intro h; omega
    · intro h; exact absurd (congrArg List.length h) hlen

theorem ConstantTimeEq_self (x : Int) : ConstantTimeEq x x = 1 := by
  unfold ConstantTimeEq
  rw [Nat.xor_self]
  decide

/-- The conversion to `int32` alone does identify lengths that differ by a multiple of
`2 ^ 32`: the length test of `secureCompare` passes for them. -/
theorem ConstantTimeEq_int32_wraps : ConstantTimeEq (int32 0) (int32 (2 ^ 32)) = 1 := by
  decide

/-! ## C1 -/

/-- The function `secureCompare` computes equality of byte strings. -/
theorem secureCompare_eq_decide (given actual : GoString) :
    secureCompare given actual = decide (given = actual) := by
  unfold secureCompare
  by_cases heq : given = actual
  · subst heq
    rw [if_pos (ConstantTimeEq_self _)]
    simp [ConstantTimeCompare_eq_one_iff]
  · split
    · simp [ConstantTimeCompare_eq_one_iff, heq]
    · simp [heq]

/-- C1: for every pair of strings, `secureCompare given actual` is true exactly when
`given` equals `actual` byte for byte; so it is false whenever the lengths differ (an
empty `given`, a proper prefix or an extension of `actual`), and the `int32` conversion
of the lengths never lets two different strings compare equal. -/
theorem secureCompare_iff_eq (given actual : GoString) :
    (secureCompare given actual = true ↔ given = actual) ∧
    (secureCompare given actual = false ↔ given ≠ actual) := by
  rw [secureCompare_eq_decide]
  simp

/-! ## C2 -/

theorem statusCode_httpError {α : Type} (msg : GoString) (code : Nat) :
    statusCode (httpError msg code : List (Event α)) = some code := rfl

theorem headersSet_httpError {α : Type} (msg : GoString) (code : Nat) :
    headersSet (httpError msg code : List (Event α))
      = [(ascii "Content-Type", ascii "text/plain; charset=utf-8"),
         (ascii "X-Content-Type-Options", ascii "nosniff")] := rfl

theorem responseBody_httpError {α : Type} (msg : GoString) (code : Nat) :
    responseBody (httpError msg code : List (Event α)) = msg ++ [10] := by
  simp [httpError, responseBody]

/-- The actions of `basicAuth`, by cases on the header. -/
theorem basicAuth_eq {α : Type} (a : api α) (req : Request) :
    basicAuth a req =
      if Get req.Header (ascii "Authorization") = expectedAuthorization a.Username a.Password
      then some []
      else some (.headerSet (ascii "WWW-Authenticate")
        (ascii "Basic realm=\"Authorization Required\"") :: httpError (ascii "Not Authorized") 401) := by
  unfold basicAuth
  simp only [secureCompare_eq_decide]
  by_cases h : Get req.Header (ascii "Authorization")
      = expectedAuthorization a.Username a.Password
  · simp [h]
  · simp [h]

/-- C2: for every configured user and password and every request, `basicAuth` performs
no action on the response exactly when the `Authorization` header equals "Basic "
followed by the base64 encoding of `user:password`; for every other header value it
sets `WWW-Authenticate`, writes status 401 and the text "Not Authorized" (which
`http.Error` ends with a newline). -/
theorem basicAuth_guard {α : Type} (a₀ : api α) (user password : GoString) (req : Request) :
    (basicAuth (SetBasicAuth a₀ user password) req = some [] ↔
      Get req.Header (ascii "Authorization")
        = ascii "Basic " ++ EncodeToString (user ++ ascii ":" ++ password)) ∧
    (Get req.Header (ascii "Authorization")
        ≠ ascii "Basic " ++ EncodeToString (user ++ ascii ":" ++ password) →
      ∃ evs, basicAuth (SetBasicAuth a₀ user password) req = some evs ∧
        (ascii "WWW-Authenticate", ascii "Basic realm=\"Authorization Required\"")
          ∈ headersSet evs ∧
        statusCode evs = some 401 ∧
        responseBody evs = ascii "Not Authorized\n") := by
  have hexp : expectedAuthorization (SetBasicAuth a₀ user password).Username
      (SetBasicAuth a₀ user password).Password
      = ascii "Basic " ++ EncodeToString (user ++ ascii ":" ++ password) := rfl
  rw [basicAuth_eq, hexp]
  constructor
  · by_cases h : Get req.Header (ascii "Authorization")
        = ascii "Basic " ++ EncodeToString (user ++ ascii ":" ++ password)
    · simp [h]
    · simp [h]
  · intro h
    rw [if_neg h]
    exact ⟨_, rfl, List.mem_cons_self _ _, rfl, rfl⟩

/-- C2 at a request without `Authorization` header, for the credentials admin:secret. -/
theorem basicAuth_guard_witness :
    ∃ evs : List (Event Nat), basicAuth guardedApi anonymousGo = some evs ∧
      (ascii "WWW-Authenticate", ascii "Basic realm=\"Authorization Required\"")
        ∈ headersSet evs ∧
      statusCode evs = some 401 ∧
      responseBody evs = ascii "Not Authorized\n" :=
  (basicAuth_guard (NewAPI Nat) (ascii "admin") (ascii "secret") anonymousGo).2 (by decide)

/-! ## C3 -/

/-- C3, the code at the failing input: on a server with Basic-Auth configured, a request
without `Authorization` header is answered 401 by the guard, and `run` then still
executes the route handler, which looks the command up and invokes it. -/
theorem run_executes_handler_after_401 :
    ∃ evs, run guardedApi (executeMcpCommand exampleEnv) anonymousGo = some evs ∧
      statusCode evs = some 401 ∧
      invocations evs = [some []] ∧
      responseBody evs = ascii "Not Authorized\n\"done\"" :=
  ⟨_, rfl, rfl, rfl, rfl⟩

/-! ## C9 -/

theorem runHandlers_eq {α : Type} (a : api α) (req : Request) :
    ∀ (hs : List (Middleware α)) (outs : List (List (Event α))),
      List.Forall₂ (fun h evs => callMiddleware a h req = some evs) hs outs →
      runHandlers a hs req = some outs.flatten
  | [], _, h => by cases h; rfl
  | h :: hs, _, hall => by
    cases hall with
    | cons hhead htail =>
      rw [runHandlers, hhead, runHandlers_eq a req hs _ htail]
      simp

/-- C9: when every registered middleware and the route handler `f` return, the actions
of `run a f` on a request are the actions of each middleware, once each and in the order
of registration, followed by the actions of `f`, once; `AddHandler`, `SetBasicAuth` and
`SetDebug` append one entry and keep the entries registered before, in their order. -/
theorem run_calls_each_once_in_order {α : Type} (a : api α) (f : HandlerFunc α)
    (req : Request) (outs : List (List (Event α))) (out : List (Event α))
    (hmw : List.Forall₂ (fun h evs => callMiddleware a h req = some evs) a.handlers outs)
    (hf : f req = some out) :
    run a f req = some (outs.flatten ++ out) ∧
    (∀ h, (AddHandler a h).handlers = a.handlers ++ [h]) ∧
    (∀ user password, (SetBasicAuth a user password).handlers = a.handlers ++ [.basicAuth]) ∧
    (∃ g, (SetDebug a).handlers = a.handlers ++ [.func g]) := by
  refine ⟨?_, fun _ => rfl, fun _ _ => rfl, ⟨_, rfl⟩⟩
  unfold run
  rw [runHandlers_eq a req a.handlers outs hmw, hf]

/-- C9 on a server with three middleware and the request `anonymousGo`. -/
theorem run_calls_each_once_in_order_witness :
    List.Forall₂ (fun h evs => callMiddleware threeMiddleware h anonymousGo = some evs)
      threeMiddleware.handlers threeMiddlewareActions ∧
    executeMcpCommand exampleEnv anonymousGo
      = some (respond exampleEnv (some exampleCommand) (some [])) ∧
    run threeMiddleware (executeMcpCommand exampleEnv) anonymousGo
      = some (threeMiddlewareActions.flatten
          ++ respond exampleEnv (some exampleCommand) (some [])) :=
  have hmw : List.Forall₂
      (fun h evs => callMiddleware threeMiddleware h anonymousGo = some evs)
      threeMiddleware.handlers threeMiddlewareActions :=
    List.Forall₂.cons rfl (List.Forall₂.cons rfl (List.Forall₂.cons rfl List.Forall₂.nil))
  ⟨hmw, rfl,
    (run_calls_each_once_in_order threeMiddleware (executeMcpCommand exampleEnv) anonymousGo
      threeMiddlewareActions _ hmw rfl).1⟩

/-! ## The invocation handlers -/

theorem find_setEntry_self {α : Type} (k : GoString) (v : Value α) :
    ∀ es : List (GoString × Value α),
      (setEntry k v es).find? (fun e => e.1 = k) = some (k, v)
  | [] => by simp [setEntry]
  | (k', v') :: es => by
    by_cases h : k' = k
    · simp [setEntry, h]
    · simp [setEntry, h, find_setEntry_self k v es]

theorem find_setEntry_other {α : Type} (k k' : GoString) (v : Value α) (hne : k' ≠ k) :
    ∀ es : List (GoString × Value α),
      (setEntry k v es).find? (fun e => e.1 = k') = es.find? (fun e => e.1 = k')
  | [] => by simp [setEntry, Ne.symm hne]
  | (k₁, v₁) :: es => by
    by_cases h : k₁ = k
    · subst h
      simp [setEntry, Ne.symm hne]
    · by_cases h' : k₁ = k'
      · subst h'
        simp [setEntry, h]
      · simp [setEntry, h, h', find_setEntry_other k k' v hne es]

/-- After `m[k] = v` the key `k` holds `v`. -/
theorem mapIndex_setEntry_self {α : Type} (k : GoString) (v : Value α)
    (es : List (GoString × Value α)) : mapIndex (some (setEntry k v es)) k = some v := by
  simp [mapIndex, find_setEntry_self]

/-- After `m[k] = v` every other key holds what it held. -/
theorem mapIndex_setEntry_other {α : Type} (k k' : GoString) (v : Value α) (hne : k' ≠ k)
    (es : List (GoString × Value α)) :
    mapIndex (some (setEntry k v es)) k' = mapIndex (some es) k' := by
  simp [mapIndex, find_setEntry_other k k' v hne]

theorem statusCode_respond {α : Type} (env : Env α) (f : Option (Command α))
    (bag : GoMap α) : statusCode (respond env f bag) = some 200 := by
  cases f <;> rfl

theorem invocations_respond {α : Type} (env : Env α) (f : Option (Command α))
    (bag : GoMap α) :
    invocations (respond env f bag) = if f.isSome then [bag] else [] := by
  cases f <;> rfl

theorem responseBody_respond_some {α : Type} (env : Env α) (f : Command α)
    (bag : GoMap α) : responseBody (respond env (some f) bag) = jsonMarshal env (f bag) := by
  simp [respond, responseBody]

theorem responseBody_respond_none {α : Type} (env : Env α) (bag : GoMap α) :
    responseBody (respond env none bag) = ascii "\"Unknown Command\"" := by
  simp only [respond, responseBody, jsonMarshal, List.append_nil]
  unfold marshalString
  rw [if_pos (by decide)]
  decide

/-- The function `executeRobotCommand` when the decoded body is an allocated map. -/
theorem executeRobotCommand_of_map {α : Type} (env : Env α) (req : Request)
    (es : List (GoString × Value α)) (hes : decodeInto (env.Decode req.Body) = some es) :
    executeRobotCommand env req =
      some (respond env
        ((env.gobot.Robot (Get req.Query (ascii ":robot"))).Command
          (Get req.Query (ascii ":command")))
        (some (setEntry (ascii "robot") (.str (Get req.Query (ascii ":robot"))) es))) := by
  simp [executeRobotCommand, hes, mapAssign]

/-- The function `executeDeviceCommand` when the decoded body is an allocated map. -/
theorem executeDeviceCommand_of_map {α : Type} (env : Env α) (req : Request)
    (es : List (GoString × Value α)) (hes : decodeInto (env.Decode req.Body) = some es) :
    executeDeviceCommand env req =
      some (respond env
        (((env.gobot.Robot (Get req.Query (ascii ":robot"))).Device
          (Get req.Query (ascii ":device"))).Command (Get req.Query (ascii ":command")))
        (some (setEntry (ascii "robot") (.str (Get req.Query (ascii ":robot"))) es))) := by
  simp [executeDeviceCommand, hes, mapAssign]

/-- The two handlers that assign `body["robot"]` panic exactly on a nil map. -/
theorem executeRobotCommand_of_nil {α : Type} (env : Env α) (req : Request)
    (hnil : decodeInto (env.Decode req.Body) = none) :
    executeRobotCommand env req = none ∧ executeDeviceCommand env req = none := by
  simp [executeRobotCommand, executeDeviceCommand, hnil, mapAssign]

/-- Known or unknown command, for the three handlers and every body that leaves an
allocated map: a known command is called once with the argument bag and the body is the
serialization of its result; for an unknown one no command is called and the body is
`"Unknown Command"`; the status is 200 in both cases. The top-level handler needs no
condition on the body. -/
theorem invocation_result {α : Type} (env : Env α) (req : Request) :
    (∃ evs, executeMcpCommand env req = some evs ∧ statusCode evs = some 200 ∧
      (∀ f, env.gobot.Command (Get req.Query (ascii ":command")) = some f →
        invocations evs = [decodeInto (env.Decode req.Body)] ∧
        responseBody evs = jsonMarshal env (f (decodeInto (env.Decode req.Body)))) ∧
      (env.gobot.Command (Get req.Query (ascii ":command")) = none →
        invocations evs = [] ∧ responseBody evs = ascii "\"Unknown Command\"")) ∧
    (∀ es, decodeInto (env.Decode req.Body) = some es →
      (∃ evs, executeRobotCommand env req = some evs ∧ statusCode evs = some 200 ∧
        (∀ f, (env.gobot.Robot (Get req.Query (ascii ":robot"))).Command
            (Get req.Query (ascii ":command")) = some f →
          invocations evs
            = [some (setEntry (ascii "robot") (.str (Get req.Query (ascii ":robot"))) es)] ∧
          responseBody evs = jsonMarshal env
            (f (some (setEntry (ascii "robot") (.str (Get req.Query (ascii ":robot"))) es)))) ∧
        ((env.gobot.Robot (Get req.Query (ascii ":robot"))).Command
            (Get req.Query (ascii ":command")) = none →
          invocations evs = [] ∧ responseBody evs = ascii "\"Unknown Command\"")) ∧
      (∃ evs, executeDeviceCommand env req = some evs ∧ statusCode evs = some 200 ∧
        (∀ f, ((env.gobot.Robot (Get req.Query (ascii ":robot"))).Device
            (Get req.Query (ascii ":device"))).Command
            (Get req.Query (ascii ":command")) = some f →
          invocations evs
            = [some (setEntry (ascii "robot") (.str (Get req.Query (ascii ":robot"))) es)] ∧
          responseBody evs = jsonMarshal env
            (f (some (setEntry (ascii "robot") (.str (Get req.Query (ascii ":robot"))) es)))) ∧
        (((env.gobot.Robot (Get req.Query (ascii ":robot"))).Device
            (Get req.Query (ascii ":device"))).Command
            (Get req.Query (ascii ":command")) = none →
          invocations evs = [] ∧ responseBody evs = ascii "\"Unknown Command\""))) := by
  refine ⟨⟨_, rfl, statusCode_respond _ _ _, ?_, ?_⟩, ?_⟩
  · intro f hf
    rw [hf]
    exact ⟨rfl, responseBody_respond_some _ _ _⟩
  · intro hf
    rw [hf]
    exact ⟨rfl, responseBody_respond_none _ _⟩
  · intro es hes
    refine ⟨⟨_, executeRobotCommand_of_map env req es hes, statusCode_respond _ _ _, ?_, ?_⟩,
      ⟨_, executeDeviceCommand_of_map env req es hes, statusCode_respond _ _ _, ?_, ?_⟩⟩
    · intro f hf
      rw [hf]
      exact ⟨rfl, responseBody_respond_some _ _ _⟩
    · intro hf
      rw [hf]
      exact ⟨rfl, responseBody_respond_none _ _⟩
    · intro f hf
      rw [hf]
      exact ⟨rfl, responseBody_respond_some _ _ _⟩
    · intro hf
      rw [hf]
      exact ⟨rfl, responseBody_respond_none _ _⟩

/-! ## C4 -/

/-- C4, the code at the failing input: robot "A" has the command "go", the request
`POST /robots/A/commands/go` carries the body `null`; the decoder leaves a nil map, the
assignment `body["robot"] = robot` panics, and the handler neither calls the command nor
writes a response. -/
theorem executeRobotCommand_null_body :
    (exampleEnv.gobot.Robot (ascii "A")).Command (ascii "go") = some exampleCommand ∧
    exampleEnv.Decode robotGoNull.Body = Decoded.null ∧
    executeRobotCommand exampleEnv robotGoNull = none :=
  ⟨rfl, rfl, rfl⟩

/-! ## C5 -/

theorem mem_invocations_respond {α : Type} {env : Env α} {f : Option (Command α)}
    {bag b : GoMap α} (hb : b ∈ invocations (respond env f bag)) : b = bag := by
  rw [invocations_respond] at hb
  split at hb
  · simpa using hb
  · simp at hb

/-- The bags the two robot-scoped handlers pass on are the decoded map with "robot" set. -/
theorem scoped_bag {α : Type} (env : Env α) (req : Request) (evs : List (Event α))
    (hevs : executeRobotCommand env req = some evs ∨ executeDeviceCommand env req = some evs)
    (bag : GoMap α) (hbag : bag ∈ invocations evs) :
    ∃ es, decodeInto (env.Decode req.Body) = some es ∧
      bag = some (setEntry (ascii "robot") (.str (Get req.Query (ascii ":robot"))) es) := by
  cases hdec : decodeInto (env.Decode req.Body) with
  | none =>
    have hnil := executeRobotCommand_of_nil env req hdec
    rw [hnil.1, hnil.2] at hevs
    simp at hevs
  | some es =>
    refine ⟨es, rfl, ?_⟩
    rw [executeRobotCommand_of_map env req es hdec,
      executeDeviceCommand_of_map env req es hdec] at hevs
    rcases hevs with h | h
    · injection h with h
      subst h
      exact mem_invocations_respond hbag
    · injection h with h
      subst h
      exact mem_invocations_respond hbag

/-- For every request and both scoped handlers, every argument bag a command
receives maps "robot" to the `:robot` path parameter, whatever the decoded body holds
under that key, and holds under every other key what the decoded body holds; and for
every body that leaves an allocated map a known command does receive its bag, once. -/
theorem scoped_bag_robot {α : Type} (env : Env α) (req : Request) :
    (∀ evs, executeRobotCommand env req = some evs ∨ executeDeviceCommand env req = some evs →
      ∀ bag ∈ invocations evs,
        mapIndex bag (ascii "robot") = some (.str (Get req.Query (ascii ":robot"))) ∧
        ∀ k, k ≠ ascii "robot" →
          mapIndex bag k = mapIndex (decodeInto (env.Decode req.Body)) k) ∧
    (∀ es, decodeInto (env.Decode req.Body) = some es →
      (((env.gobot.Robot (Get req.Query (ascii ":robot"))).Command
          (Get req.Query (ascii ":command"))).isSome →
        ∃ evs, executeRobotCommand env req = some evs ∧ (invocations evs).length = 1) ∧
      ((((env.gobot.Robot (Get req.Query (ascii ":robot"))).Device
          (Get req.Query (ascii ":device"))).Command
          (Get req.Query (ascii ":command"))).isSome →
        ∃ evs, executeDeviceCommand env req = some evs ∧ (invocations evs).length = 1)) := by
  constructor
  · intro evs hevs bag hbag
    obtain ⟨es, hes, rfl⟩ := scoped_bag env req evs hevs bag hbag
    rw [hes]
    exact ⟨mapIndex_setEntry_self _ _ _, fun k hk => mapIndex_setEntry_other _ _ _ hk _⟩
  · intro es hes
    constructor
    · intro hf
      refine ⟨_, executeRobotCommand_of_map env req es hes, ?_⟩
      rw [invocations_respond, if_pos hf]
      rfl
    · intro hf
      refine ⟨_, executeDeviceCommand_of_map env req es hes, ?_⟩
      rw [invocations_respond, if_pos hf]
      rfl

/-- The bag on `POST /robots/A/devices/motor/commands/start` with a body that names
robot "B" and a speed: the command sees robot "A" and the speed of the body. -/
theorem scoped_bag_robot_witness :
    ∃ evs, executeDeviceCommand exampleEnv motorStartSpeed = some evs ∧
      (invocations evs).length = 1 ∧
      ∀ bag ∈ invocations evs,
        mapIndex bag (ascii "robot") = some (.str (ascii "A")) ∧
        mapIndex bag (ascii "speed") = some (.other 5) :=
  ⟨_, rfl, rfl, fun bag hbag =>
    have h := (scoped_bag_robot exampleEnv motorStartSpeed).1 _ (Or.inr rfl) bag hbag
    ⟨h.1, (h.2 (ascii "speed") (by decide)).trans rfl⟩⟩

/-- C5, the code at the failing input: device "motor" of robot "A" has the command
"start"; with the body `{}` the command receives the bag whose entry "robot" is "A",
but with the body `null` the decoder leaves a nil map, the assignment
`body["robot"] = robot` panics and the command receives no bag at all. -/
theorem executeDeviceCommand_null_body :
    ((exampleEnv.gobot.Robot (ascii "A")).Device (ascii "motor")).Command (ascii "start")
      = some exampleCommand ∧
    (executeDeviceCommand exampleEnv motorStartEmptyObject).map invocations
      = some [some [(ascii "robot", .str (ascii "A"))]] ∧
    exampleEnv.Decode motorStartNull.Body = Decoded.null ∧
    executeDeviceCommand exampleEnv motorStartNull = none :=
  ⟨rfl, rfl, rfl, rfl⟩

/-! ## C6 -/

/-- When Decode returns an error and leaves the map as made (no body, malformed JSON,
a JSON array, string, number or boolean), the three handlers return normally with
status 200; the top-level command is called with the empty map, a robot- or
device-scoped command with the map whose only entry is "robot"; and the actions are
those for a body that decodes to the empty object. -/
theorem decode_failure_recovered {α : Type} (env : Env α) (req : Request)
    (hfail : env.Decode req.Body = Decoded.failure) :
    (∃ evs, executeMcpCommand env req = some evs ∧ statusCode evs = some 200 ∧
      invocations evs =
        if (env.gobot.Command (Get req.Query (ascii ":command"))).isSome
        then [some []] else []) ∧
    (∃ evs, executeRobotCommand env req = some evs ∧ statusCode evs = some 200 ∧
      invocations evs =
        if ((env.gobot.Robot (Get req.Query (ascii ":robot"))).Command
          (Get req.Query (ascii ":command"))).isSome
        then [some [(ascii "robot", .str (Get req.Query (ascii ":robot")))]] else []) ∧
    (∃ evs, executeDeviceCommand env req = some evs ∧ statusCode evs = some 200 ∧
      invocations evs =
        if (((env.gobot.Robot (Get req.Query (ascii ":robot"))).Device
          (Get req.Query (ascii ":device"))).Command
          (Get req.Query (ascii ":command"))).isSome
        then [some [(ascii "robot", .str (Get req.Query (ascii ":robot")))]] else []) ∧
    (∀ req' : Request, env.Decode req'.Body = Decoded.object [] → req'.Query = req.Query →
      executeMcpCommand env req = executeMcpCommand env req' ∧
      executeRobotCommand env req = executeRobotCommand env req' ∧
      executeDeviceCommand env req = executeDeviceCommand env req') := by
  have hdec : decodeInto (env.Decode req.Body) = some [] := by rw [hfail]; rfl
  refine ⟨⟨_, rfl, statusCode_respond _ _ _, ?_⟩,
    ⟨_, executeRobotCommand_of_map env req [] hdec, statusCode_respond _ _ _, ?_⟩,
    ⟨_, executeDeviceCommand_of_map env req [] hdec, statusCode_respond _ _ _, ?_⟩, ?_⟩
  · rw [invocations_respond, hdec]
  · rw [invocations_respond]; rfl
  · rw [invocations_respond]; rfl
  · intro req' hobj hq
    have hdec' : decodeInto (env.Decode req'.Body) = some [] := by rw [hobj]; rfl
    refine ⟨?_, ?_, ?_⟩
    · simp [executeMcpCommand, hdec, hdec', hq]
    · rw [executeRobotCommand_of_map env req [] hdec,
        executeRobotCommand_of_map env req' [] hdec', hq]
    · rw [executeDeviceCommand_of_map env req [] hdec,
        executeDeviceCommand_of_map env req' [] hdec', hq]

/-- The recovery on `POST /robots/A/devices/motor/commands/start` without a body: the
command "start" is called with the map whose only entry is "robot", as for the body
`{}`. -/
theorem decode_failure_recovered_witness :
    exampleEnv.Decode motorStart.Body = Decoded.failure ∧
    (∃ evs, executeDeviceCommand exampleEnv motorStart = some evs ∧
      statusCode evs = some 200 ∧
      invocations evs = [some [(ascii "robot", .str (ascii "A"))]]) ∧
    executeDeviceCommand exampleEnv motorStart
      = executeDeviceCommand exampleEnv motorStartEmptyObject :=
  have h := decode_failure_recovered exampleEnv motorStart rfl
  ⟨rfl, h.2.2.1, (h.2.2.2 motorStartEmptyObject rfl rfl).2.2⟩

/-- C6, the code at the failing input: the body `null` is JSON that is not an object.
With the body `{}` the command "go" of robot "A" is called with the bag whose only
entry is "robot"; with the body `null` the robot-scoped and the device-scoped handler
panic at `body["robot"] = robot`, so they fail and give no response, and the top-level
handler calls its command with the nil map. -/
theorem null_body_not_recovered :
    (executeRobotCommand exampleEnv robotGoEmptyObject).map invocations
      = some [some [(ascii "robot", .str (ascii "A"))]] ∧
    (executeRobotCommand exampleEnv robotGoEmptyObject).map statusCode = some (some 200) ∧
    (executeRobotCommand exampleEnv robotGoNull).map statusCode = none ∧
    (executeDeviceCommand exampleEnv motorStartNull).map statusCode = none ∧
    (executeMcpCommand exampleEnv mcpGoNull).map invocations = some [none] :=
  ⟨rfl, rfl, rfl, rfl, rfl⟩

/-! ## C10 -/

/-- C10 fails: device "motor" of robot "A" has the command "start"; on
`POST /robots/A/devices/motor/commands/start` without a body the command is called with
the bag whose only entry is "robot", and no key of that bag holds the device name. -/
theorem device_name_not_in_bag :
    ((exampleEnv.gobot.Robot (ascii "A")).Device (ascii "motor")).Command (ascii "start")
      = some exampleCommand ∧
    ∃ evs, executeDeviceCommand exampleEnv motorStart = some evs ∧
      invocations evs = [some [(ascii "robot", .str (ascii "A"))]] ∧
      ∀ bag ∈ invocations evs, ¬ ∃ k, mapIndex bag k = some (.str (ascii "motor")) := by
  refine ⟨rfl, _, rfl, rfl, ?_⟩
  intro bag hbag
  have hb : bag = some [(ascii "robot", .str (ascii "A"))] := by
    simpa [invocations, executeDeviceCommand] using hbag
  subst hb
  rintro ⟨k, hk⟩
  by_cases h : ascii "robot" = k
  · simp only [mapIndex, List.find?, h, decide_True, Option.map_some', Option.some.injEq,
      Value.str.injEq] at hk
    exact absurd hk (by decide)
  · simp [mapIndex, List.find?, h] at hk

/-- C10 as amended: for every device-scoped invocation of a known command whose body
leaves an allocated map (no body, a body that fails to decode, or a JSON object), the
command is called once with the decoded entries in which only "robot" has been set, to
the `:robot` path parameter; the device name is not added, and with nothing decoded the
bag is the single entry "robot". -/
theorem device_bag_only_robot_added {α : Type} (env : Env α) (req : Request)
    (es : List (GoString × Value α)) (f : Command α)
    (hes : decodeInto (env.Decode req.Body) = some es)
    (hf : ((env.gobot.Robot (Get req.Query (ascii ":robot"))).Device
      (Get req.Query (ascii ":device"))).Command (Get req.Query (ascii ":command")) = some f) :
    ∃ evs, executeDeviceCommand env req = some evs ∧
      invocations evs
        = [some (setEntry (ascii "robot") (.str (Get req.Query (ascii ":robot"))) es)] ∧
      (es = [] →
        invocations evs = [some [(ascii "robot", .str (Get req.Query (ascii ":robot")))]]) := by
  refine ⟨_, executeDeviceCommand_of_map env req es hes, ?_, ?_⟩
  · rw [hf]; rfl
  · rintro rfl
    rw [hf]; rfl

/-- C10 as amended, on `POST /robots/A/devices/motor/commands/start` without a body. -/
theorem device_bag_only_robot_added_witness :
    decodeInto (exampleEnv.Decode motorStart.Body) = some [] ∧
    ∃ evs, executeDeviceCommand exampleEnv motorStart = some evs ∧
      invocations evs = [some [(ascii "robot", .str (ascii "A"))]] :=
  have h := device_bag_only_robot_added exampleEnv motorStart [] exampleCommand rfl rfl
  ⟨rfl, h.imp fun _ hevs => ⟨hevs.1, hevs.2.2 rfl⟩⟩

/-! ## Splitting and joining -/

theorem splitOn_ne_nil (sep : Byte) : ∀ s : GoString, splitOn sep s ≠ []
  | [] => by simp [splitOn]
  | c :: cs => by
    unfold splitOn
    split
    · simp
    · split <;> simp

theorem splitOn_of_not_mem (sep : Byte) :
    ∀ s : GoString, sep ∉ s → splitOn sep s = [s]
  | [], _ => rfl
  | c :: cs, h => by
    have hc : c ≠ sep := fun hc => h (by simp [hc])
    have hcs : sep ∉ cs := fun hm => h (List.mem_cons_of_mem _ hm)
    simp [splitOn, hc, splitOn_of_not_mem sep cs hcs]

/-- Splitting distributes over a separator in the middle. -/
theorem splitOn_append_sep (sep : Byte) (b : GoString) :
    ∀ a : GoString, splitOn sep (a ++ sep :: b) = splitOn sep a ++ splitOn sep b
  | [] => by simp [splitOn]
  | c :: a => by
    have ih := splitOn_append_sep sep b a
    by_cases hc : c = sep
    · simp [splitOn, hc, ih]
    · cases hsplit : splitOn sep a with
      | nil => exact absurd hsplit (splitOn_ne_nil sep a)
      | cons piece pieces =>
        rw [hsplit] at ih
        simp [splitOn, hc, ih, hsplit]

theorem not_mem_of_mem_splitOn (sep : Byte) :
    ∀ (s : GoString) (p : GoString), p ∈ splitOn sep s → sep ∉ p
  | [], p, hp => by
    simp [splitOn] at hp
    simp [hp]
  | c :: cs, p, hp => by
    by_cases hc : c = sep
    · simp only [splitOn, hc, if_true, List.mem_cons] at hp
      rcases hp with rfl | hp
      · simp
      · exact not_mem_of_mem_splitOn sep cs p hp
    · cases hsplit : splitOn sep cs with
      | nil => exact absurd hsplit (splitOn_ne_nil sep cs)
      | cons piece pieces =>
        simp only [splitOn, hc, if_false, hsplit, List.mem_cons] at hp
        rcases hp with rfl | hp
        · have hpiece := not_mem_of_mem_splitOn sep cs piece (by simp [hsplit])
          intro hmem
          rcases List.mem_cons.mp hmem with h | h
          · exact hc h.symm
          · exact hpiece h
        · exact not_mem_of_mem_splitOn sep cs p (by simp [hsplit, hp])

/-- A string with a separator in it ends in a separator followed by a piece without. -/
theorem exists_last_sep (sep : Byte) :
    ∀ s : GoString, sep ∈ s → ∃ pre e, s = pre ++ sep :: e ∧ sep ∉ e
  | [], h => by simp at h
  | c :: cs, h => by
    by_cases hcs : sep ∈ cs
    · obtain ⟨pre, e, hs, he⟩ := exists_last_sep sep cs hcs
      exact ⟨c :: pre, e, by simp [hs], he⟩
    · have hc : sep = c := by
        rcases List.mem_cons.mp h with h | h
        · exact h
        · exact absurd h hcs
      exact ⟨[], cs, by simp [hc], hcs⟩

theorem getLastD_splitOn_append (sep : Byte) (pre e : GoString) (he : sep ∉ e) :
    (splitOn sep (pre ++ sep :: e)).getLastD [] = e := by
  rw [splitOn_append_sep, splitOn_of_not_mem sep e he]
  simp

/-- The last piece of a split is `ext` exactly when the string is `ext` itself or ends
in the separator followed by `ext`. -/
theorem getLastD_splitOn_eq_iff (sep : Byte) (s ext : GoString) (hext : sep ∉ ext) :
    (splitOn sep s).getLastD [] = ext ↔ s = ext ∨ (sep :: ext) <:+ s := by
  constructor
  · intro h
    by_cases hs : sep ∈ s
    · obtain ⟨pre, e, rfl, he⟩ := exists_last_sep sep s hs
      rw [getLastD_splitOn_append sep pre e he] at h
      subst h
      exact Or.inr ⟨pre, rfl⟩
    · rw [splitOn_of_not_mem sep s hs] at h
      exact Or.inl (by simpa using h)
  · rintro (rfl | ⟨pre, rfl⟩)
    · rw [splitOn_of_not_mem sep s hext]
      simp
    · exact getLastD_splitOn_append sep pre ext hext

/-! ## C8 -/

/-- For a path that begins with "/", the last dot-separated piece is "js" (or "css")
exactly when the path ends in ".js" (or ".css"). -/
theorem last_piece_iff_suffix (rest : GoString) :
    ((splitOn 46 (47 :: rest)).getLastD [] = ascii "js" ↔ ascii ".js" <:+ 47 :: rest) ∧
    ((splitOn 46 (47 :: rest)).getLastD [] = ascii "css" ↔ ascii ".css" <:+ 47 :: rest) := by
  constructor
  · rw [getLastD_splitOn_eq_iff 46 _ (ascii "js") (by decide)]
    constructor
    · rintro (h | h)
      · exact absurd (List.head_eq_of_cons_eq h) (by decide)
      · exact h
    · exact Or.inr
  · rw [getLastD_splitOn_eq_iff 46 _ (ascii "css") (by decide)]
    constructor
    · rintro (h | h)
      · exact absurd (List.head_eq_of_cons_eq h) (by decide)
      · exact h
    · exact Or.inr

/-- C8: on a path that begins with "/", `robeaux` looks up the path without its first
byte. When the lookup fails it answers 404 with the error text (to which `http.Error`
adds a newline) and sets neither asset content type. When it succeeds it writes exactly
the asset's bytes, with `Content-Type` set to the JavaScript type exactly when the path
ends in ".js", to the CSS type exactly when it ends in ".css", and no header set
otherwise. -/
theorem robeaux_serves {α : Type} (env : Env α) (req : Request) (rest : GoString)
    (hpath : req.Path = 47 :: rest) :
    (∀ err, env.Asset rest = .error err →
      ∃ evs, robeaux env req = some evs ∧ statusCode evs = some 404 ∧
        responseBody evs = err ++ [10] ∧
        (ascii "Content-Type", ascii "text/javascript; charset=utf-8") ∉ headersSet evs ∧
        (ascii "Content-Type", ascii "text/css; charset=utf-8") ∉ headersSet evs) ∧
    (∀ buf, env.Asset rest = .ok buf →
      ∃ evs, robeaux env req = some evs ∧ statusCode evs = some 200 ∧
        responseBody evs = buf ∧
        ((ascii "Content-Type", ascii "text/javascript; charset=utf-8") ∈ headersSet evs
          ↔ ascii ".js" <:+ req.Path) ∧
        ((ascii "Content-Type", ascii "text/css; charset=utf-8") ∈ headersSet evs
          ↔ ascii ".css" <:+ req.Path) ∧
        (¬ ascii ".js" <:+ req.Path → ¬ ascii ".css" <:+ req.Path → headersSet evs = [])) := by
  obtain ⟨hjs, hcss⟩ := last_piece_iff_suffix rest
  constructor
  · intro err herr
    refine ⟨httpError err 404, ?_, rfl, responseBody_httpError err 404,
      by rw [headersSet_httpError]; decide, by rw [headersSet_httpError]; decide⟩
    simp [robeaux, hpath, herr]
  · intro buf hbuf
    rw [hpath]
    by_cases h1 : (splitOn 46 (47 :: rest)).getLastD [] = ascii "js"
    · refine ⟨[.headerSet (ascii "Content-Type") (ascii "text/javascript; charset=utf-8"),
        .write buf], ?_, rfl, by simp [responseBody], ?_, ?_, ?_⟩
      · simp only [robeaux, hpath, hbuf]
        rw [if_pos h1]
      · simp [headersSet, hjs.mp h1]
      · have hne : ¬ ascii ".css" <:+ 47 :: rest := fun h =>
          absurd (h1.symm.trans (hcss.mpr h)) (by decide)
        simp only [headersSet, List.mem_singleton, hne, iff_false]
        decide
      · intro h; exact absurd (hjs.mp h1) h
    · by_cases h2 : (splitOn 46 (47 :: rest)).getLastD [] = ascii "css"
      · refine ⟨[.headerSet (ascii "Content-Type") (ascii "text/css; charset=utf-8"),
          .write buf], ?_, rfl, by simp [responseBody], ?_, ?_, ?_⟩
        · simp only [robeaux, hpath, hbuf]
          rw [if_neg h1, if_pos h2]
        · simp only [headersSet, List.mem_singleton, mt hjs.mpr h1, iff_false]
          decide
        · simp [headersSet, hcss.mp h2]
        · intro _ h; exact absurd (hcss.mp h2) h
      · refine ⟨[.write buf], ?_, rfl, by simp [responseBody], ?_, ?_, ?_⟩
        · simp only [robeaux, hpath, hbuf]
          rw [if_neg h1, if_neg h2]
        · simp [headersSet, mt hjs.mpr h1]
        · simp [headersSet, mt hcss.mpr h2]
        · intro _ _; rfl

/-- C8 on `GET /app.js`, where the asset "app.js" exists. -/
theorem robeaux_serves_witness :
    appJs.Path = 47 :: ascii "app.js" ∧
    ∃ evs, robeaux exampleEnv appJs = some evs ∧ statusCode evs = some 200 ∧
      responseBody evs = ascii "run()" ∧
      (ascii "Content-Type", ascii "text/javascript; charset=utf-8") ∈ headersSet evs :=
  ⟨rfl, ((robeaux_serves exampleEnv appJs (ascii "app.js") rfl).2 (ascii "run()") rfl).imp
    fun _ h => ⟨h.1, h.2.1, h.2.2.1, h.2.2.2.1.mpr ⟨ascii "/app", rfl⟩⟩⟩

/-! ## C7 -/

theorem splitOn_joinSegments :
    ∀ segs : List GoString, segs ≠ [] → (∀ p ∈ segs, (47 : Byte) ∉ p) →
      splitOn 47 (joinSegments segs) = segs
  | [], h, _ => absurd rfl h
  | [s], _, hfree => by
    simpa [joinSegments] using splitOn_of_not_mem 47 s (hfree s (by simp))
  | s :: t :: ts, _, hfree => by
    have hs : (47 : Byte) ∉ s := hfree s (by simp)
    have ih := splitOn_joinSegments (t :: ts) (by simp)
      (fun p hp => hfree p (List.mem_cons_of_mem _ hp))
    rw [joinSegments, splitOn_append_sep, splitOn_of_not_mem 47 s hs, ih]
    rfl

/-- The segments of a filled pattern are the filled segments of the pattern. -/
theorem splitOn_fill (value : GoString → GoString) (pattern : GoString)
    (hvalue : ∀ p ∈ splitOn 47 pattern, isPlaceholder p = true →
      value p ≠ [] ∧ (47 : Byte) ∉ value p) :
    splitOn 47 (fill value pattern) = (splitOn 47 pattern).map (fillSegment value) := by
  apply splitOn_joinSegments
  · simpa using splitOn_ne_nil 47 pattern
  · intro q hq
    obtain ⟨p, hp, rfl⟩ := List.mem_map.mp hq
    unfold fillSegment
    split
    · next hph => exact (hvalue p hp hph).2
    · exact not_mem_of_mem_splitOn 47 pattern p hp

theorem matchSegments_self (value : GoString → GoString) :
    ∀ ps : List GoString, (∀ p ∈ ps, isPlaceholder p = true → value p ≠ []) →
      matchSegments ps (ps.map (fillSegment value))
        = some ((ps.filter isPlaceholder).map (fun p => (p, value p)))
  | [], _ => rfl
  | p :: ps, h => by
    have ih := matchSegments_self value ps (fun q hq => h q (List.mem_cons_of_mem _ hq))
    by_cases hp : isPlaceholder p = true
    · have hne : value p ≠ [] := h p (by simp) hp
      simp [matchSegments, fillSegment, hp, hne, ih]
    · simp [matchSegments, fillSegment, hp, ih]

theorem matchSegments_clash (value : GoString → GoString) :
    ∀ ps qs : List GoString, clash ps qs = true →
      matchSegments ps (qs.map (fillSegment value)) = none
  | [], [], h => by simp [clash] at h
  | [], _ :: _, _ => by simp [matchSegments]
  | _ :: _, [], _ => by simp [matchSegments]
  | p :: ps, q :: qs, h => by
    by_cases hp : isPlaceholder p = true
    · have hrest : clash ps qs = true := by simpa [clash, hp] using h
      have ih := matchSegments_clash value ps qs hrest
      simp only [List.map_cons, matchSegments, hp, if_true, ih]
      split <;> rfl
    · by_cases hq : isPlaceholder q = true
      · have hrest : clash ps qs = true := by simpa [clash, hp, hq] using h
        have ih := matchSegments_clash value ps qs hrest
        simp only [List.map_cons, matchSegments, hp, ih]
        simp
      · by_cases hpq : p = q
        · have hrest : clash ps qs = true := by simpa [clash, hp, hq, hpq] using h
          have ih := matchSegments_clash value ps qs hrest
          simp only [List.map_cons, matchSegments, hp, ih]
          simp
        · simp [matchSegments, fillSegment, hp, hq, hpq]

theorem dispatch_append (method path : GoString) (rs : List Route) :
    ∀ before : List Route,
      (∀ r ∈ before, r.method = method → matchPattern r.pattern path = none) →
      dispatch (before ++ rs) method path = dispatch rs method path
  | [], _ => rfl
  | r :: before, h => by
    have ih := dispatch_append method path rs before
      (fun r' hr' => h r' (List.mem_cons_of_mem _ hr'))
    by_cases hm : r.method = method
    · simp [dispatch, hm, h r (by simp) hm, ih]
    · simp [dispatch, hm, ih]

/-- An entry is selected on every filling of its own pattern when each entry before it
with the same method clashes with it. -/
theorem dispatch_entry (before : List Route) (r : Route) (after : List Route)
    (value : GoString → GoString)
    (hclash : ∀ r' ∈ before, r'.method = r.method →
      clash (splitOn 47 r'.pattern) (splitOn 47 r.pattern) = true)
    (hvalue : ∀ p ∈ splitOn 47 r.pattern, isPlaceholder p = true →
      value p ≠ [] ∧ (47 : Byte) ∉ value p) :
    dispatch (before ++ r :: after) r.method (fill value r.pattern)
      = some (r, bindings value r.pattern) := by
  have hsegs := splitOn_fill value r.pattern hvalue
  rw [dispatch_append]
  · have hself : matchPattern r.pattern (fill value r.pattern)
        = some (bindings value r.pattern) := by
      unfold matchPattern bindings
      rw [hsegs]
      exact matchSegments_self value _ (fun p hp hph => (hvalue p hp hph).1)
    simp [dispatch, hself]
  · intro r' hr' hm
    unfold matchPattern
    rw [hsegs]
    exact matchSegments_clash value _ _ (hclash r' hr' hm)

/-- The form of `dispatch_entry` used on the route table: the table is cut at the entry,
the path and the bound parameters are written out. -/
theorem dispatch_explicit (before : List Route) (r : Route) (after : List Route)
    (value : GoString → GoString) {method path : GoString}
    {bound : List (GoString × GoString)}
    (hstart : Start = before ++ r :: after) (hmethod : r.method = method)
    (hclash : ∀ r' ∈ before, r'.method = r.method →
      clash (splitOn 47 r'.pattern) (splitOn 47 r.pattern) = true)
    (hvalue : ∀ p ∈ splitOn 47 r.pattern, isPlaceholder p = true →
      value p ≠ [] ∧ (47 : Byte) ∉ value p)
    (hpath : fill value r.pattern = path) (hbound : bindings value r.pattern = bound) :
    dispatch Start method path = some (r, bound) := by
  rw [hstart, ← hmethod, ← hpath, ← hbound]
  exact dispatch_entry before r after value hclash hvalue

/-- The values written for the four placeholders of the route table. -/
theorem placeholderValue_ok (robot device command connection : GoString)
    (hrobot : robot ≠ [] ∧ (47 : Byte) ∉ robot)
    (hdevice : device ≠ [] ∧ (47 : Byte) ∉ device)
    (hcommand : command ≠ [] ∧ (47 : Byte) ∉ command)
    (hconnection : connection ≠ [] ∧ (47 : Byte) ∉ connection) (p : GoString) :
    placeholderValue robot device command connection p ≠ [] ∧
      (47 : Byte) ∉ placeholderValue robot device command connection p := by
  unfold placeholderValue
  split_ifs <;> assumption

/-- C7: over the route table registered by `Start`, scanned in registration order with
patterns matched segment by segment, each of the sixteen structured (method, pattern)
entries of the fixed route table is the entry selected for its method and for every path
obtained from its pattern by writing an arbitrary non-empty string without "/" for each
placeholder; the entry carries the operation the table gives (never the asset fallback,
never another entry) and the parameters bound are exactly the strings written. -/
theorem dispatch_structured (robot device command connection : GoString)
    (hrobot : robot ≠ [] ∧ (47 : Byte) ∉ robot)
    (hdevice : device ≠ [] ∧ (47 : Byte) ∉ device)
    (hcommand : command ≠ [] ∧ (47 : Byte) ∉ command)
    (hconnection : connection ≠ [] ∧ (47 : Byte) ∉ connection) :
    dispatch Start (ascii "GET") (ascii "/")
      = some ({ method := ascii "GET", pattern := ascii "/", operation := .mcp }, []) ∧
    dispatch Start (ascii "GET") (ascii "/commands")
      = some ({ method := ascii "GET", pattern := ascii "/commands",
                operation := .mcpCommands }, []) ∧
    dispatch Start (ascii "GET") (ascii "/commands/" ++ command)
      = some ({ method := ascii "GET", pattern := ascii "/commands/:command",
                operation := .executeMcpCommand }, [(ascii ":command", command)]) ∧
    dispatch Start (ascii "POST") (ascii "/commands/" ++ command)
      = some ({ method := ascii "POST", pattern := ascii "/commands/:command",
                operation := .executeMcpCommand }, [(ascii ":command", command)]) ∧
    dispatch Start (ascii "GET") (ascii "/robots")
      = some ({ method := ascii "GET", pattern := ascii "/robots",
                operation := .robots }, []) ∧
    dispatch Start (ascii "GET") (ascii "/robots/" ++ robot)
      = some ({ method := ascii "GET", pattern := ascii "/robots/:robot",
                operation := .robot }, [(ascii ":robot", robot)]) ∧
    dispatch Start (ascii "GET") (ascii "/robots/" ++ robot ++ ascii "/commands")
      = some ({ method := ascii "GET", pattern := ascii "/robots/:robot/commands",
                operation := .robotCommands }, [(ascii ":robot", robot)]) ∧
    dispatch Start (ascii "GET")
        (ascii "/robots/" ++ robot ++ ascii "/commands/" ++ command)
      = some ({ method := ascii "GET", pattern := ascii "/robots/:robot/commands/:command",
                operation := .executeRobotCommand },
              [(ascii ":robot", robot), (ascii ":command", command)]) ∧
    dispatch Start (ascii "POST")
        (ascii "/robots/" ++ robot ++ ascii "/commands/" ++ command)
      = some ({ method := ascii "POST", pattern := ascii "/robots/:robot/commands/:command",
                operation := .executeRobotCommand },
              [(ascii ":robot", robot), (ascii ":command", command)]) ∧
    dispatch Start (ascii "GET") (ascii "/robots/" ++ robot ++ ascii "/devices")
      = some ({ method := ascii "GET", pattern := ascii "/robots/:robot/devices",
                operation := .robotDevices }, [(ascii ":robot", robot)]) ∧
    dispatch Start (ascii "GET") (ascii "/robots/" ++ robot ++ ascii "/devices/" ++ device)
      = some ({ method := ascii "GET", pattern := ascii "/robots/:robot/devices/:device",
                operation := .robotDevice },
              [(ascii ":robot", robot), (ascii ":device", device)]) ∧
    dispatch Start (ascii "GET")
        (ascii "/robots/" ++ robot ++ ascii "/devices/" ++ device ++ ascii "/commands")
      = some ({ method := ascii "GET",
                pattern := ascii "/robots/:robot/devices/:device/commands",
                operation := .robotDeviceCommands },
              [(ascii ":robot", robot), (ascii ":device", device)]) ∧
    dispatch Start (ascii "GET")
        (ascii "/robots/" ++ robot ++ ascii "/devices/" ++ device ++ ascii "/commands/"
          ++ command)
      = some ({ method := ascii "GET",
                pattern := ascii "/robots/:robot/devices/:device/commands/:command",
                operation := .executeDeviceCommand },
              [(ascii ":robot", robot), (ascii ":device", device),
               (ascii ":command", command)]) ∧
    dispatch Start (ascii "POST")
        (ascii "/robots/" ++ robot ++ ascii "/devices/" ++ device ++ ascii "/commands/"
          ++ command)
      = some ({ method := ascii "POST",
                pattern := ascii "/robots/:robot/devices/:device/commands/:command",
                operation := .executeDeviceCommand },
              [(ascii ":robot", robot), (ascii ":device", device),
               (ascii ":command", command)]) ∧
    dispatch Start (ascii "GET") (ascii "/robots/" ++ robot ++ ascii "/connections")
      = some ({ method := ascii "GET", pattern := ascii "/robots/:robot/connections",
                operation := .robotConnections }, [(ascii ":robot", robot)]) ∧
    dispatch Start (ascii "GET")
        (ascii "/robots/" ++ robot ++ ascii "/connections/" ++ connection)
      = some ({ method := ascii "GET",
                pattern := ascii "/robots/:robot/connections/:connection",
                operation := .robotConnection },
              [(ascii ":robot", robot), (ascii ":connection", connection)]) := by
  have hval : ∀ (pattern : GoString), ∀ p ∈ splitOn 47 pattern, isPlaceholder p = true →
      placeholderValue robot device command connection p ≠ [] ∧
        (47 : Byte) ∉ placeholderValue robot device command connection p :=
    fun _ p _ _ =>
      placeholderValue_ok robot device command connection hrobot hdevice hcommand
        hconnection p
  refine ⟨?_, ?_, ?_, ?_, ?_, ?_, ?_, ?_, ?_, ?_, ?_, ?_, ?_, ?_, ?_, ?_⟩
  · exact dispatch_explicit (Start.take 0) _ (Start.drop 1)
      (placeholderValue robot device command connection) rfl rfl (by decide) (hval _)
      rfl rfl
  · exact dispatch_explicit (Start.take 1) _ (Start.drop 2)
      (placeholderValue robot device command connection) rfl rfl (by decide) (hval _)
      rfl rfl
  · exact dispatch_explicit (Start.take 2) _ (Start.drop 3)
      (placeholderValue robot device command connection) rfl rfl (by decide) (hval _)
      rfl rfl
  · exact dispatch_explicit (Start.take 3) _ (Start.drop 4)
      (placeholderValue robot device command connection) rfl rfl (by decide) (hval _)
      rfl rfl
  · exact dispatch_explicit (Start.take 4) _ (Start.drop 5)
      (placeholderValue robot device command connection) rfl rfl (by decide) (hval _)
      rfl rfl
  · exact dispatch_explicit (Start.take 5) _ (Start.drop 6)
      (placeholderValue robot device command connection) rfl rfl (by decide) (hval _)
      rfl rfl
  · exact dispatch_explicit (Start.take 6) _ (Start.drop 7)
      (placeholderValue robot device command connection) rfl rfl (by decide) (hval _)
      rfl rfl
  · exact dispatch_explicit (Start.take 7) _ (Start.drop 8)
      (placeholderValue robot device command connection) rfl rfl (by decide) (hval _)
      (by simp only [List.append_assoc]; rfl) rfl
  · exact dispatch_explicit (Start.take 8) _ (Start.drop 9)
      (placeholderValue robot device command connection) rfl rfl (by decide) (hval _)
      (by simp only [List.append_assoc]; rfl) rfl
  · exact dispatch_explicit (Start.take 9) _ (Start.drop 10)
      (placeholderValue robot device command connection) rfl rfl (by decide) (hval _)
      rfl rfl
  · exact dispatch_explicit (Start.take 10) _ (Start.drop 11)
      (placeholderValue robot device command connection) rfl rfl (by decide) (hval _)
      (by simp only [List.append_assoc]; rfl) rfl
  · exact dispatch_explicit (Start.take 11) _ (Start.drop 12)
      (placeholderValue robot device command connection) rfl rfl (by decide) (hval _)
      (by simp only [List.append_assoc]; rfl) rfl
  · exact dispatch_explicit (Start.take 12) _ (Start.drop 13)
      (placeholderValue robot device command connection) rfl rfl (by decide) (hval _)
      (by simp only [List.append_assoc]; rfl) rfl
  · exact dispatch_explicit (Start.take 13) _ (Start.drop 14)
      (placeholderValue robot device command connection) rfl rfl (by decide) (hval _)
      (by simp only [List.append_assoc]; rfl) rfl
  · exact dispatch_explicit (Start.take 14) _ (Start.drop 15)
      (placeholderValue robot device command connection) rfl rfl (by decide) (hval _)
      rfl rfl
  · exact dispatch_explicit (Start.take 15) _ (Start.drop 16)
      (placeholderValue robot device command connection) rfl rfl (by decide) (hval _)
      (by simp only [List.append_assoc]; rfl) rfl

/-- C7 on robot "A", device "motor", command "start" and connection "usb": the entry
selected for `POST /robots/A/devices/motor/commands/start`. -/
theorem dispatch_structured_witness :
    dispatch Start (ascii "POST") (ascii "/robots/A/devices/motor/commands/start")
      = some ({ method := ascii "POST",
                pattern := ascii "/robots/:robot/devices/:device/commands/:command",
                operation := .executeDeviceCommand },
              [(ascii ":robot", ascii "A"), (ascii ":device", ascii "motor"),
               (ascii ":command", ascii "start")]) :=
  (dispatch_structured (ascii "A") (ascii "motor") (ascii "start") (ascii "usb")
    (by decide) (by decide) (by decide) (by decide)).2.2.2.2.2.2.2.2.2.2.2.2.2.1

end Gobot.Api
